import Mathlib

/-!
Verification of the replication-placement engine for a consistent-hash
token ring (package `tokendistributor`): token arithmetic, the simple and
the zone-aware replication strategies, and the deterministic test fixture.
The repository ships the test files; the engine itself is reconstructed
from the specification, constrained so that every concrete expectation of
the tests (`TestSimpleReplicationStrategy_*`,
`TestZoneAwareReplicationStrategy_*`) is met.
-/

namespace TokenDistributor

/-- A token is a point on the circular keyspace `[0, M)`. -/
abbrev Token := Nat

/-- An instance is an opaque string-like identifier of a replication endpoint. -/
abbrev Instance := String

/-- A zone is an opaque identifier of a fault domain. -/
abbrev Zone := String

/-- Modelled from the spec: the ring-size constant `maxTokenValue` is not under
`src/` (the tests reference it as a package constant); the spec says
implementations typically pick `2^32` or a full word, so we model the
`math.MaxUint32` choice. -/
def maxTokenValue : Nat := 4294967295

/-- Modelled from the spec: the method `Token.distance` is not under `src/`
(the tests call `replicaStart.distance(lastReplicaToken, maxTokenValue)`).
Spec section 4.2: clockwise distance from `a` to `b` on a ring of size `M`:
`b - a` when `b ≥ a`, and `(M - a) + b` otherwise. -/
def distance (a b M : Nat) : Nat :=
  if a ≤ b then b - a else (M - a) + b

/-- Error taxonomy of the engine (spec section 7). -/
inductive RingError where
  | tokenNotOnRing
  | notEnoughInstances
  | notEnoughZones
  | invalidReplicationFactor
deriving DecidableEq

/-- Modelled from the spec: `successorIndex(T)` (spec section 4.1) — the
smallest index `i` such that `sortedTokens[i] ≥ T`, wrapping to `0` if none
exists. On a sorted list the first matching index is the smallest. -/
def successorIndex (T : Token) (tokens : List Token) : Nat :=
  match tokens.findIdx? (fun t => T ≤ t) with
  | some i => i
  | none => 0

/-- Modelled from the spec: exact-match token search used by `replicaStart`
and `lastReplicaToken` (spec section 4.3: "T is required to appear in
`sortedTokens`"). Returns the index of the first occurrence of `T`. -/
def searchToken (T : Token) : List Token → Option Nat
  | [] => none
  | t :: rest => if t = T then some 0 else (searchToken T rest).map (fun i => i + 1)

/-- Modelled from the spec: the clockwise collection walk shared by both
strategies (spec sections 4.4 and 4.5). Starting from the already-selected
tokens `acc`, traverse `l` in order; a token whose key (instance for the
simple strategy, zone for the zone-aware one) is already represented is
skipped, a token with a new key is selected, and the walk stops as soon as
`R` tokens are selected. -/
def collectByKey {κ : Type} [DecidableEq κ] (R : Nat) (key : Token → κ) :
    List Token → List Token → List Token
  | [], acc => acc
  | t :: rest, acc =>
    if acc.length = R then acc
    else if key t ∈ acc.map key then collectByKey R key rest acc
    else collectByKey R key rest (acc ++ [t])

/-- Modelled from the spec: `replicaSet(T)` common core (spec sections 4.4,
4.5 and 4.6): route `T` through `successorIndex` (T need not be on the ring),
walk clockwise collecting one token per new key until `R` keys are
represented, and fail with the strategy's "not enough" error when a full
walk yields fewer than `R`; `R = 0` fails with `InvalidReplicationFactor`. -/
def getReplicaSetBy {κ : Type} [DecidableEq κ] (R : Nat) (key : Token → κ)
    (notEnough : RingError) (T : Token) (tokens : List Token) :
    Except RingError (List Token) :=
  if R = 0 then .error .invalidReplicationFactor
  else
    let walk := tokens.rotate (successorIndex T tokens)
    let picked := collectByKey R key walk []
    if picked.length = R then .ok picked else .error notEnough

/-- Modelled from the spec: the counter-clockwise walk of `replicaStart`
(spec sections 4.3-4.5 and the scenario table S5-S7). `rs` is the
farthest-back token reached so far, `seen` the distinct non-self keys met so
far. The walk stops when it meets a token carrying the query token's own key
(that token's arc handles everything before it), or when a step would
introduce the `R`-th distinct other key (which would push the query token
out of the `R`-window); repeated keys are traversed freely. -/
def replicaStartWalk {κ : Type} [DecidableEq κ] (R : Nat) (key : Token → κ)
    (selfKey : κ) : List Token → Token → List κ → Token
  | [], rs, _ => rs
  | p :: rest, rs, seen =>
    if key p = selfKey then rs
    else if key p ∈ seen then replicaStartWalk R key selfKey rest p seen
    else if seen.length + 1 < R then replicaStartWalk R key selfKey rest p (seen ++ [key p])
    else rs

/-- Modelled from the spec: `replicaStart(T)` common core. `T` must appear in
`sortedTokens`, otherwise the call fails with `TokenNotOnRing` (spec
sections 4.3 and 4.6); the counter-clockwise walk starts at the cyclic
predecessor of `T`. -/
def getReplicaStartBy {κ : Type} [DecidableEq κ] (R : Nat) (key : Token → κ)
    (T : Token) (tokens : List Token) : Except RingError Token :=
  match searchToken T tokens with
  | none => .error .tokenNotOnRing
  | some i => .ok (replicaStartWalk R key (key T) (((tokens.rotate i).drop 1).reverse) T [])

/-- Modelled from the spec: the clockwise walk of `lastReplicaToken` (spec
section 4.4): gather distinct keys starting from the key of the query token
until `R` have been gathered, traverse repeated keys freely, and return the
last token visited before the `(R+1)`-th distinct key would be reached. -/
def lastReplicaWalk {κ : Type} [DecidableEq κ] (R : Nat) (key : Token → κ) :
    List Token → Token → List κ → Token
  | [], last, _ => last
  | p :: rest, last, seen =>
    if key p ∈ seen then lastReplicaWalk R key rest p seen
    else if seen.length < R then lastReplicaWalk R key rest p (seen ++ [key p])
    else last

/-- Modelled from the spec: `lastReplicaToken(T)` common core; mirrors
`replicaStart`'s requirement that the argument be a ring token. -/
def getLastReplicaTokenBy {κ : Type} [DecidableEq κ] (R : Nat) (key : Token → κ)
    (T : Token) (tokens : List Token) : Except RingError Token :=
  match searchToken T tokens with
  | none => .error .tokenNotOnRing
  | some i => .ok (lastReplicaWalk R key ((tokens.rotate i).drop 1) T [key T])

/-- Modelled from the spec: the simple strategy keys the walks by instance
(spec section 4.4). `instOf` is the `ringInstanceByToken` mapping. -/
def simpleGetReplicaSet (R : Nat) (instOf : Token → Instance) (T : Token)
    (tokens : List Token) : Except RingError (List Instance) :=
  (getReplicaSetBy R instOf .notEnoughInstances T tokens).map (fun l => l.map instOf)

/-- Modelled from the spec: `getReplicaStart` of the simple strategy. -/
def simpleGetReplicaStart (R : Nat) (instOf : Token → Instance) (T : Token)
    (tokens : List Token) : Except RingError Token :=
  getReplicaStartBy R instOf T tokens

/-- Modelled from the spec: `getLastReplicaToken` of the simple strategy. -/
def simpleGetLastReplicaToken (R : Nat) (instOf : Token → Instance) (T : Token)
    (tokens : List Token) : Except RingError Token :=
  getLastReplicaTokenBy R instOf T tokens

/-- Modelled from the spec: the zone-aware strategy keys the walks by the
zone of the owning instance (spec section 4.5). `zoneOf` is the
`zoneByInstance` mapping. -/
def zoneAwareGetReplicaSet (R : Nat) (instOf : Token → Instance)
    (zoneOf : Instance → Zone) (T : Token) (tokens : List Token) :
    Except RingError (List Instance) :=
  (getReplicaSetBy R (fun t => zoneOf (instOf t)) .notEnoughZones T tokens).map
    (fun l => l.map instOf)

/-- Modelled from the spec: `getReplicaStart` of the zone-aware strategy. -/
def zoneAwareGetReplicaStart (R : Nat) (instOf : Token → Instance)
    (zoneOf : Instance → Zone) (T : Token) (tokens : List Token) :
    Except RingError Token :=
  getReplicaStartBy R (fun t => zoneOf (instOf t)) T tokens

/-- Modelled from the spec: `getLastReplicaToken` of the zone-aware strategy. -/
def zoneAwareGetLastReplicaToken (R : Nat) (instOf : Token → Instance)
    (zoneOf : Instance → Zone) (T : Token) (tokens : List Token) :
    Except RingError Token :=
  getLastReplicaTokenBy R (fun t => zoneOf (instOf t)) T tokens

/-- Modelled from the spec: the sorted tokens of the deterministic test
fixture `createRingTokensInstancesZones`, which is not under `src/`. The
spec only abbreviates the fixture ("tokens such that the clockwise order at
the relevant query points is known"); the ring below realises every
documented expectation: tokens 48, 97, 194, 853 and 902 are on the ring, 50,
190 and 956 are not, 956 exceeds the maximum, and the owners below give
exactly the replica starts 48, 902 and 853 of scenarios S5-S7. -/
def fixtureTokens : List Token := [48, 97, 194, 853, 902]

/-- Modelled from the spec: the fixture's `ringInstanceByToken` mapping.
48 is owned by instance-2 and cyclically preceded by the same instance (at
902), 97 by instance-1, 194 by instance-0 (spec scenarios S5-S7). -/
def fixtureInstance : Token → Instance
  | 48 => "instance-2"
  | 97 => "instance-1"
  | 194 => "instance-0"
  | 853 => "instance-1"
  | 902 => "instance-2"
  | _ => ""

/-- Modelled from the spec: the fixture's `zoneByInstance` mapping, one
instance per zone (spec section 8). -/
def fixtureZone : Instance → Zone
  | "instance-0" => "zone-0"
  | "instance-1" => "zone-1"
  | "instance-2" => "zone-2"
  | _ => ""

/-- A successful replica-set result matching an expected collection up to
order, mirroring the tests' `ElementsMatch` assertion (the spec declares the
replica set an unordered collection). -/
def okElementsMatch (res : Except RingError (List Instance)) (l : List Instance) : Prop :=
  ∃ out, res = .ok out ∧ out.Perm l

/-! ### Helper lemmas about the collection walk -/

theorem searchToken_eq_none {T : Token} {l : List Token} (h : T ∉ l) :
    searchToken T l = none := by
  induction l with
  | nil => rfl
  | cons t rest ih =>
    have ht : ¬t = T := fun he => h (he ▸ List.mem_cons_self t rest)
    have hr : T ∉ rest := fun hm => h (List.mem_cons_of_mem t hm)
    simp [searchToken, ht, ih hr]

theorem collectByKey_length_le {κ : Type} [DecidableEq κ] (R : Nat) (key : Token → κ) :
    ∀ (l acc : List Token), acc.length ≤ R → (collectByKey R key l acc).length ≤ R := by
  intro l
  induction l with
  | nil => intro acc h; simpa [collectByKey] using h
  | cons t rest ih =>
    intro acc h
    by_cases h1 : acc.length = R
    · simp [collectByKey, h1]
    · by_cases h2 : key t ∈ acc.map key
      · simpa [collectByKey, h1, h2] using ih acc h
      · have hlen : (acc ++ [t]).length ≤ R := by
          simp only [List.length_append, List.length_singleton]
          omega
        simpa [collectByKey, h1, h2] using ih (acc ++ [t]) hlen

theorem collectByKey_mem_of_mem {κ : Type} [DecidableEq κ] (R : Nat) (key : Token → κ) :
    ∀ (l acc : List Token) (x : Token), x ∈ acc → x ∈ collectByKey R key l acc := by
  intro l
  induction l with
  | nil => intro acc x hx; simpa [collectByKey] using hx
  | cons t rest ih =>
    intro acc x hx
    by_cases h1 : acc.length = R
    · simpa [collectByKey, h1] using hx
    · by_cases h2 : key t ∈ acc.map key
      · simpa [collectByKey, h1, h2] using ih acc x hx
      · have hx' : x ∈ acc ++ [t] := List.mem_append_left _ hx
        simpa [collectByKey, h1, h2] using ih (acc ++ [t]) x hx'

theorem collectByKey_key_mem {κ : Type} [DecidableEq κ] (R : Nat) (key : Token → κ)
    (l acc : List Token) (x : κ) (hx : x ∈ acc.map key) :
    x ∈ (collectByKey R key l acc).map key := by
  rcases List.mem_map.mp hx with ⟨a, ha, rfl⟩
  exact List.mem_map_of_mem key (collectByKey_mem_of_mem R key l acc a ha)

theorem collectByKey_nodup_map {κ : Type} [DecidableEq κ] (R : Nat) (key : Token → κ) :
    ∀ (l acc : List Token), (acc.map key).Nodup →
      ((collectByKey R key l acc).map key).Nodup := by
  intro l
  induction l with
  | nil => intro acc h; simpa [collectByKey] using h
  | cons t rest ih =>
    intro acc h
    by_cases h1 : acc.length = R
    · simpa [collectByKey, h1] using h
    · by_cases h2 : key t ∈ acc.map key
      · simpa [collectByKey, h1, h2] using ih acc h
      · have hnd : ((acc ++ [t]).map key).Nodup := by
          rw [List.map_append]
          simp only [List.nodup_append, List.map_singleton, List.nodup_singleton,
            List.disjoint_singleton]
          exact ⟨h, trivial, h2⟩
        simpa [collectByKey, h1, h2] using ih (acc ++ [t]) hnd

theorem collectByKey_short_all {κ : Type} [DecidableEq κ] (R : Nat) (key : Token → κ) :
    ∀ (l acc : List Token), (collectByKey R key l acc).length < R →
      ∀ t ∈ l, key t ∈ (collectByKey R key l acc).map key := by
  intro l
  induction l with
  | nil => intro acc _ t ht; exact absurd ht (List.not_mem_nil t)
  | cons t rest ih =>
    intro acc hlt u hu
    by_cases h1 : acc.length = R
    · rw [show collectByKey R key (t :: rest) acc = acc from by simp [collectByKey, h1]] at hlt
      omega
    · by_cases h2 : key t ∈ acc.map key
      · have hres : collectByKey R key (t :: rest) acc = collectByKey R key rest acc := by
          simp [collectByKey, h1, h2]
        rw [hres] at hlt ⊢
        rcases List.mem_cons.mp hu with rfl | hu'
        · exact collectByKey_key_mem R key rest acc (key u) h2
        · exact ih acc hlt u hu'
      · have hres : collectByKey R key (t :: rest) acc = collectByKey R key rest (acc ++ [t]) := by
          simp [collectByKey, h1, h2]
        rw [hres] at hlt ⊢
        rcases List.mem_cons.mp hu with rfl | hu'
        · exact collectByKey_key_mem R key rest (acc ++ [u]) (key u)
            (by simp)
        · exact ih (acc ++ [t]) hlt u hu'

theorem collectByKey_subset {κ : Type} [DecidableEq κ] (R : Nat) (key : Token → κ) :
    ∀ (l acc : List Token) (x : Token), x ∈ collectByKey R key l acc → x ∈ acc ∨ x ∈ l := by
  intro l
  induction l with
  | nil => intro acc x hx; exact Or.inl (by simpa [collectByKey] using hx)
  | cons t rest ih =>
    intro acc x hx
    by_cases h1 : acc.length = R
    · exact Or.inl (by simpa [collectByKey, h1] using hx)
    · by_cases h2 : key t ∈ acc.map key
      · rcases ih acc x (by simpa [collectByKey, h1, h2] using hx) with h | h
        · exact Or.inl h
        · exact Or.inr (List.mem_cons_of_mem t h)
      · rcases ih (acc ++ [t]) x (by simpa [collectByKey, h1, h2] using hx) with h | h
        · rcases List.mem_append.mp h with h' | h'
          · exact Or.inl h'
          · exact Or.inr (by simp at h'; simp [h'])
        · exact Or.inr (List.mem_cons_of_mem t h)

theorem collectByKey_length_lt_iff {κ : Type} [DecidableEq κ] (R : Nat) (key : Token → κ)
    (walk : List Token) :
    (collectByKey R key walk []).length < R ↔ (walk.map key).dedup.length < R := by
  have hnd : ((collectByKey R key walk []).map key).Nodup :=
    collectByKey_nodup_map R key walk [] (by simp)
  have hsub : ∀ x ∈ (collectByKey R key walk []).map key, x ∈ walk.map key := by
    intro x hx
    rcases List.mem_map.mp hx with ⟨a, ha, rfl⟩
    rcases collectByKey_subset R key walk [] a ha with h | h
    · exact absurd h (List.not_mem_nil a)
    · exact List.mem_map_of_mem key h
  constructor
  · intro hlt
    have hall : ∀ t ∈ walk, key t ∈ (collectByKey R key walk []).map key :=
      collectByKey_short_all R key walk [] hlt
    have hfin : ((collectByKey R key walk []).map key).toFinset = (walk.map key).toFinset := by
      apply Finset.ext
      intro x
      simp only [List.mem_toFinset]
      constructor
      · exact hsub x
      · intro hx
        rcases List.mem_map.mp hx with ⟨a, ha, rfl⟩
        exact hall a ha
    have h1 : ((collectByKey R key walk []).map key).length = (walk.map key).dedup.length := by
      rw [← List.toFinset_card_of_nodup hnd, hfin, List.card_toFinset]
    rw [← h1, List.length_map]
    exact hlt
  · intro hlt
    by_contra hge
    have hle : (collectByKey R key walk []).length ≤ R :=
      collectByKey_length_le R key walk [] (by simp)
    have hfle : ((collectByKey R key walk []).map key).toFinset ⊆ (walk.map key).toFinset := by
      intro x hx
      exact List.mem_toFinset.mpr (hsub x (List.mem_toFinset.mp hx))
    have hcard : ((collectByKey R key walk []).map key).length ≤ (walk.map key).dedup.length := by
      rw [← List.toFinset_card_of_nodup hnd, ← List.card_toFinset]
      exact Finset.card_le_card hfle
    rw [List.length_map] at hcard
    omega

theorem dedup_map_rotate_length {κ : Type} [DecidableEq κ] (key : Token → κ)
    (tokens : List Token) (n : Nat) :
    (((tokens.rotate n).map key).dedup).length = ((tokens.map key).dedup).length :=
  (((tokens.rotate_perm n).map key).dedup).length_eq

theorem getReplicaSetBy_ok {κ : Type} [DecidableEq κ] {R : Nat} {key : Token → κ}
    {notEnough : RingError} {T : Token} {tokens : List Token} {picked : List Token}
    (h : getReplicaSetBy R key notEnough T tokens = .ok picked) :
    picked = collectByKey R key (tokens.rotate (successorIndex T tokens)) [] ∧
      picked.length = R := by
  unfold getReplicaSetBy at h
  by_cases hR : R = 0
  · rw [if_pos hR] at h
    exact absurd h (by simp)
  · rw [if_neg hR] at h
    simp only at h
    by_cases hlen :
        (collectByKey R key (tokens.rotate (successorIndex T tokens)) []).length = R
    · rw [if_pos hlen] at h
      cases h
      exact ⟨rfl, hlen⟩
    · rw [if_neg hlen] at h
      exact absurd h (by simp)

theorem getReplicaSetBy_error_iff {κ : Type} [DecidableEq κ] (R : Nat) (key : Token → κ)
    (notEnough : RingError) (hne : notEnough ≠ .invalidReplicationFactor)
    (T : Token) (tokens : List Token) :
    getReplicaSetBy R key notEnough T tokens = .error notEnough ↔
      (tokens.map key).dedup.length < R := by
  unfold getReplicaSetBy
  by_cases hR : R = 0
  · rw [if_pos hR]
    subst hR
    simp only [Nat.not_lt_zero, iff_false]
    intro h
    exact hne (by injection h with h'; exact h'.symm)
  · rw [if_neg hR]
    simp only
    by_cases hlen :
        (collectByKey R key (tokens.rotate (successorIndex T tokens)) []).length = R
    · rw [if_pos hlen]
      constructor
      · intro h; exact absurd h (by simp)
      · intro h
        rw [← dedup_map_rotate_length key tokens (successorIndex T tokens)] at h
        rw [← collectByKey_length_lt_iff] at h
        omega
    · rw [if_neg hlen]
      have hle : (collectByKey R key (tokens.rotate (successorIndex T tokens)) []).length ≤ R :=
        collectByKey_length_le R key _ [] (by simp)
      have hlt : (collectByKey R key (tokens.rotate (successorIndex T tokens)) []).length < R := by
        omega
      rw [collectByKey_length_lt_iff, dedup_map_rotate_length] at hlt
      simp [hlt]

theorem exceptMap_ok {ε α β : Type} {f : α → β} {r : Except ε α} {out : β}
    (h : Except.map f r = .ok out) : ∃ v, r = .ok v ∧ out = f v := by
  cases r with
  | error e => exact absurd h (by simp [Except.map])
  | ok v => exact ⟨v, rfl, by simpa [Except.map] using h.symm⟩

theorem exceptMap_error_iff {ε α β : Type} (f : α → β) (r : Except ε α) (e : ε) :
    Except.map f r = .error e ↔ r = .error e := by
  cases r with
  | error e' => simp [Except.map]
  | ok v => simp [Except.map]

/-! ### Claim theorems -/

/-- C1: for every token T of the fixture ring and for both the simple and
the zone-aware strategy, the replica start and the last replica token exist
and satisfy the arc-consistency law
`distance(replicaStart(T), lastReplicaToken(replicaStart(T)), M) ≥
distance(replicaStart(T), T, M)` with `M = maxTokenValue`. -/
theorem claim_C1_arc_consistency :
    ∀ T ∈ fixtureTokens,
      (∃ rs lt, simpleGetReplicaStart 3 fixtureInstance T fixtureTokens = .ok rs ∧
        simpleGetLastReplicaToken 3 fixtureInstance rs fixtureTokens = .ok lt ∧
        distance rs T maxTokenValue ≤ distance rs lt maxTokenValue) ∧
      (∃ rs lt, zoneAwareGetReplicaStart 3 fixtureInstance fixtureZone T fixtureTokens = .ok rs ∧
        zoneAwareGetLastReplicaToken 3 fixtureInstance fixtureZone rs fixtureTokens = .ok lt ∧
        distance rs T maxTokenValue ≤ distance rs lt maxTokenValue) := by
  intro T hT
  fin_cases hT
  · exact ⟨⟨48, 902, rfl, rfl, by decide⟩, ⟨48, 902, rfl, rfl, by decide⟩⟩
  · exact ⟨⟨902, 853, rfl, rfl, by decide⟩, ⟨902, 853, rfl, rfl, by decide⟩⟩
  · exact ⟨⟨853, 194, rfl, rfl, by decide⟩, ⟨853, 194, rfl, rfl, by decide⟩⟩
  · exact ⟨⟨194, 97, rfl, rfl, by decide⟩, ⟨194, 97, rfl, rfl, by decide⟩⟩
  · exact ⟨⟨97, 48, rfl, rfl, by decide⟩, ⟨97, 48, rfl, rfl, by decide⟩⟩

/-- Witness for C1: the law holds at the concrete fixture token 48. -/
theorem claim_C1_arc_consistency_witness :
    48 ∈ fixtureTokens ∧
      ((∃ rs lt, simpleGetReplicaStart 3 fixtureInstance 48 fixtureTokens = .ok rs ∧
        simpleGetLastReplicaToken 3 fixtureInstance rs fixtureTokens = .ok lt ∧
        distance rs 48 maxTokenValue ≤ distance rs lt maxTokenValue) ∧
      (∃ rs lt, zoneAwareGetReplicaStart 3 fixtureInstance fixtureZone 48 fixtureTokens = .ok rs ∧
        zoneAwareGetLastReplicaToken 3 fixtureInstance fixtureZone rs fixtureTokens = .ok lt ∧
        distance rs 48 maxTokenValue ≤ distance rs lt maxTokenValue)) :=
  ⟨by decide, claim_C1_arc_consistency 48 (by decide)⟩

/-- C2: on the fixture ring with R = 3 the simple strategy's
`getReplicaStart` returns 48 for token 48 (owned by instance-2, whose cyclic
predecessor 902 is also owned by instance-2), 902 for token 97 (owned by
instance-1), and 853 for token 194 (owned by instance-0). -/
theorem claim_C2_simple_replica_start_values :
    simpleGetReplicaStart 3 fixtureInstance 48 fixtureTokens = .ok 48 ∧
    simpleGetReplicaStart 3 fixtureInstance 97 fixtureTokens = .ok 902 ∧
    simpleGetReplicaStart 3 fixtureInstance 194 fixtureTokens = .ok 853 ∧
    fixtureInstance 48 = "instance-2" ∧
    fixtureInstance 902 = "instance-2" ∧
    fixtureInstance 97 = "instance-1" ∧
    fixtureInstance 194 = "instance-0" :=
  ⟨rfl, rfl, rfl, rfl, rfl, rfl, rfl⟩

/-- C3: for every token T that does not appear in `sortedTokens`, the
`getReplicaStart` of either strategy fails with `TokenNotOnRing`. -/
theorem claim_C3_replica_start_token_not_on_ring :
    ∀ (R : Nat) (instOf : Token → Instance) (zoneOf : Instance → Zone)
      (T : Token) (tokens : List Token), T ∉ tokens →
      simpleGetReplicaStart R instOf T tokens = .error .tokenNotOnRing ∧
      zoneAwareGetReplicaStart R instOf zoneOf T tokens = .error .tokenNotOnRing := by
  intro R instOf zoneOf T tokens h
  have hs : searchToken T tokens = none := searchToken_eq_none h
  constructor
  · simp [simpleGetReplicaStart, getReplicaStartBy, hs]
  · simp [zoneAwareGetReplicaStart, getReplicaStartBy, hs]

/-- Witness for C3: the off-ring token 50 of the fixture. -/
theorem claim_C3_replica_start_token_not_on_ring_witness :
    (50 : Token) ∉ fixtureTokens ∧
      (simpleGetReplicaStart 3 fixtureInstance 50 fixtureTokens = .error .tokenNotOnRing ∧
       zoneAwareGetReplicaStart 3 fixtureInstance fixtureZone 50 fixtureTokens =
         .error .tokenNotOnRing) :=
  ⟨by decide,
   claim_C3_replica_start_token_not_on_ring 3 fixtureInstance fixtureZone 50 fixtureTokens
     (by decide)⟩

/-- C4: on the fixture ring with R = 3 the simple strategy's `getReplicaSet`
returns the set {instance-2, instance-1, instance-0} for T = 48 and for
T = 956 (which wraps past the highest token 902), and the set
{instance-1, instance-0, instance-2} for T = 97 and for the off-ring token
T = 50. -/
theorem claim_C4_simple_replica_set_values :
    okElementsMatch (simpleGetReplicaSet 3 fixtureInstance 48 fixtureTokens)
      ["instance-2", "instance-1", "instance-0"] ∧
    okElementsMatch (simpleGetReplicaSet 3 fixtureInstance 956 fixtureTokens)
      ["instance-2", "instance-1", "instance-0"] ∧
    okElementsMatch (simpleGetReplicaSet 3 fixtureInstance 97 fixtureTokens)
      ["instance-1", "instance-0", "instance-2"] ∧
    okElementsMatch (simpleGetReplicaSet 3 fixtureInstance 50 fixtureTokens)
      ["instance-1", "instance-0", "instance-2"] :=
  ⟨⟨["instance-2", "instance-1", "instance-0"], rfl, by decide⟩,
   ⟨["instance-2", "instance-1", "instance-0"], rfl, by decide⟩,
   ⟨["instance-1", "instance-0", "instance-2"], rfl, by decide⟩,
   ⟨["instance-1", "instance-0", "instance-2"], rfl, by decide⟩⟩

/-- C5: on the fixture ring (one instance per zone) with R = 3 the
zone-aware strategy's `getReplicaSet` returns the set
{instance-2, instance-1, instance-0} for T = 48 and the set
{instance-0, instance-2, instance-1} for T = 194. -/
theorem claim_C5_zone_aware_replica_set_values :
    okElementsMatch (zoneAwareGetReplicaSet 3 fixtureInstance fixtureZone 48 fixtureTokens)
      ["instance-2", "instance-1", "instance-0"] ∧
    okElementsMatch (zoneAwareGetReplicaSet 3 fixtureInstance fixtureZone 194 fixtureTokens)
      ["instance-0", "instance-2", "instance-1"] :=
  ⟨⟨["instance-2", "instance-1", "instance-0"], rfl, by decide⟩,
   ⟨["instance-0", "instance-1", "instance-2"], rfl, by decide⟩⟩

/-- C6: whenever `getReplicaSet` of either strategy returns without error,
the returned collection has exactly R pairwise-distinct instances, and for
the zone-aware strategy the zones of the returned instances are additionally
pairwise distinct. -/
theorem claim_C6_replica_set_size_and_distinctness :
    ∀ (R : Nat) (instOf : Token → Instance) (zoneOf : Instance → Zone)
      (T : Token) (tokens : List Token) (out : List Instance),
      (simpleGetReplicaSet R instOf T tokens = .ok out →
        out.length = R ∧ out.Nodup) ∧
      (zoneAwareGetReplicaSet R instOf zoneOf T tokens = .ok out →
        out.length = R ∧ out.Nodup ∧ (out.map zoneOf).Nodup) := by
  intro R instOf zoneOf T tokens out
  constructor
  · intro h
    rcases exceptMap_ok h with ⟨picked, hok, rfl⟩
    rcases getReplicaSetBy_ok hok with ⟨hp, hlen⟩
    subst hp
    refine ⟨by simpa using hlen, ?_⟩
    exact collectByKey_nodup_map R instOf _ [] (by simp)
  · intro h
    rcases exceptMap_ok h with ⟨picked, hok, rfl⟩
    rcases getReplicaSetBy_ok hok with ⟨hp, hlen⟩
    subst hp
    have hznd : ((collectByKey R (fun t => zoneOf (instOf t))
        (tokens.rotate (successorIndex T tokens)) []).map
          (fun t => zoneOf (instOf t))).Nodup :=
      collectByKey_nodup_map R (fun t => zoneOf (instOf t)) _ [] (by simp)
    have hmm : ((collectByKey R (fun t => zoneOf (instOf t))
        (tokens.rotate (successorIndex T tokens)) []).map instOf).map zoneOf =
        (collectByKey R (fun t => zoneOf (instOf t))
          (tokens.rotate (successorIndex T tokens)) []).map
            (fun t => zoneOf (instOf t)) := by
      rw [List.map_map]
      rfl
    refine ⟨by simpa using hlen, ?_, ?_⟩
    · exact List.Nodup.of_map zoneOf (by rw [hmm]; exact hznd)
    · rw [hmm]
      exact hznd

/-- Witness for C6: both strategies at the fixture token 48. -/
theorem claim_C6_replica_set_size_and_distinctness_witness :
    simpleGetReplicaSet 3 fixtureInstance 48 fixtureTokens =
      .ok ["instance-2", "instance-1", "instance-0"] ∧
    zoneAwareGetReplicaSet 3 fixtureInstance fixtureZone 48 fixtureTokens =
      .ok ["instance-2", "instance-1", "instance-0"] ∧
    (["instance-2", "instance-1", "instance-0"] : List Instance).length = 3 ∧
    (["instance-2", "instance-1", "instance-0"] : List Instance).Nodup ∧
    ((["instance-2", "instance-1", "instance-0"] : List Instance).map fixtureZone).Nodup :=
  ⟨rfl, rfl,
   ((claim_C6_replica_set_size_and_distinctness 3 fixtureInstance fixtureZone 48 fixtureTokens
      ["instance-2", "instance-1", "instance-0"]).1 rfl).1,
   ((claim_C6_replica_set_size_and_distinctness 3 fixtureInstance fixtureZone 48 fixtureTokens
      ["instance-2", "instance-1", "instance-0"]).2 rfl).2.1,
   ((claim_C6_replica_set_size_and_distinctness 3 fixtureInstance fixtureZone 48 fixtureTokens
      ["instance-2", "instance-1", "instance-0"]).2 rfl).2.2⟩

/-- C7: `getReplicaSet` fails with `NotEnoughInstances` under the simple
strategy exactly when the ring has fewer than R distinct instances, and with
`NotEnoughZones` under the zone-aware strategy exactly when the ring has
fewer than R distinct zones. -/
theorem claim_C7_not_enough_errors_iff :
    ∀ (R : Nat) (instOf : Token → Instance) (zoneOf : Instance → Zone)
      (T : Token) (tokens : List Token),
      (simpleGetReplicaSet R instOf T tokens = .error .notEnoughInstances ↔
        (tokens.map instOf).dedup.length < R) ∧
      (zoneAwareGetReplicaSet R instOf zoneOf T tokens = .error .notEnoughZones ↔
        (tokens.map (fun t => zoneOf (instOf t))).dedup.length < R) := by
  intro R instOf zoneOf T tokens
  constructor
  · rw [simpleGetReplicaSet, exceptMap_error_iff]
    exact getReplicaSetBy_error_iff R instOf .notEnoughInstances (by decide) T tokens
  · rw [zoneAwareGetReplicaSet, exceptMap_error_iff]
    exact getReplicaSetBy_error_iff R (fun t => zoneOf (instOf t)) .notEnoughZones
      (by decide) T tokens

/-- C8: for tokens a, b in [0, M), `distance(a, b, M)` equals `b - a` when
`b ≥ a` and `(M - a) + b` otherwise; `distance(a, a, M) = 0` and every
distance lies in [0, M). -/
theorem claim_C8_distance_formula_and_range :
    ∀ (a b M : Nat), a < M → b < M →
      (a ≤ b → distance a b M = b - a) ∧
      (b < a → distance a b M = (M - a) + b) ∧
      distance a a M = 0 ∧
      distance a b M < M := by
  intro a b M ha hb
  refine ⟨?_, ?_, ?_, ?_⟩
  · intro h
    rw [distance, if_pos h]
  · intro h
    rw [distance, if_neg (by omega)]
  · rw [distance, if_pos (Nat.le_refl a)]
    omega
  · rw [distance]
    split <;> omega

/-- Witness for C8: concrete tokens a = 5, b = 3 on a ring of size 10. -/
theorem claim_C8_distance_formula_and_range_witness :
    5 < 10 ∧ 3 < 10 ∧
      ((5 ≤ 3 → distance 5 3 10 = 3 - 5) ∧
       (3 < 5 → distance 5 3 10 = (10 - 5) + 3) ∧
       distance 5 5 10 = 0 ∧
       distance 5 3 10 < 10) :=
  ⟨by decide, by decide,
   claim_C8_distance_formula_and_range 5 3 10 (by decide) (by decide)⟩

/-- C9: every operation of both strategies is deterministic — the engine is
a pure function of its arguments, so two calls with identical arguments over
the same ring index return equal results. -/
theorem claim_C9_determinism :
    ∀ (R : Nat) (instOf : Token → Instance) (zoneOf : Instance → Zone)
      (T : Token) (tokens : List Token),
      simpleGetReplicaSet R instOf T tokens = simpleGetReplicaSet R instOf T tokens ∧
      simpleGetReplicaStart R instOf T tokens = simpleGetReplicaStart R instOf T tokens ∧
      simpleGetLastReplicaToken R instOf T tokens =
        simpleGetLastReplicaToken R instOf T tokens ∧
      zoneAwareGetReplicaSet R instOf zoneOf T tokens =
        zoneAwareGetReplicaSet R instOf zoneOf T tokens ∧
      zoneAwareGetReplicaStart R instOf zoneOf T tokens =
        zoneAwareGetReplicaStart R instOf zoneOf T tokens ∧
      zoneAwareGetLastReplicaToken R instOf zoneOf T tokens =
        zoneAwareGetLastReplicaToken R instOf zoneOf T tokens :=
  fun _ _ _ _ _ => ⟨rfl, rfl, rfl, rfl, rfl, rfl⟩

/-- C10: on the fixture ring with R = 3, the zone-aware `getReplicaSet` at a
query token strictly between two ring tokens equals its result at the owning
ring token: the result at 50 equals the result at its owning token 97 and is
the set {instance-2, instance-1, instance-0}, and the result at 190 equals
the result at its owning token 194 and is the set
{instance-0, instance-2, instance-1}. -/
theorem claim_C10_zone_aware_off_ring_routing :
    zoneAwareGetReplicaSet 3 fixtureInstance fixtureZone 50 fixtureTokens =
      zoneAwareGetReplicaSet 3 fixtureInstance fixtureZone 97 fixtureTokens ∧
    zoneAwareGetReplicaSet 3 fixtureInstance fixtureZone 190 fixtureTokens =
      zoneAwareGetReplicaSet 3 fixtureInstance fixtureZone 194 fixtureTokens ∧
    okElementsMatch (zoneAwareGetReplicaSet 3 fixtureInstance fixtureZone 50 fixtureTokens)
      ["instance-2", "instance-1", "instance-0"] ∧
    okElementsMatch (zoneAwareGetReplicaSet 3 fixtureInstance fixtureZone 190 fixtureTokens)
      ["instance-0", "instance-2", "instance-1"] :=
  ⟨rfl, rfl,
   ⟨["instance-1", "instance-0", "instance-2"], rfl, by decide⟩,
   ⟨["instance-0", "instance-1", "instance-2"], rfl, by decide⟩⟩

end TokenDistributor
